import Mathlib

/-!
Verification development for the two-agent turn-taking system.

The source has two files:

* `system2.py` — `TalkingThread.start_talking` coordinates the floor through a
  shared manager dict with keys `"<name>_is_talking"` / `"<name>_wants_to_talk"`.
  We embed that routine as a small-step program (`Agent`, `stepAgent`) so that
  interleavings of the two agents can be analysed; the fabric is embedded as an
  association list (`Dict`), reads going through `.get(key, False)` and Python
  truthiness (`readFlag`).
* `state.py` — `TalkingProcess`, a state machine over
  `idle / intending_to_talk / talking / yield`, driven by `run()`.  We embed the
  guard functions and one iteration of the driver loop (`runStep`), with time and
  random draws passed in as rational inputs.
-/

/-- A Python value stored in the shared manager dict.  The program itself only
ever writes booleans; `pyStr` models a malformed entry, which Python's `if`
interprets through truthiness. -/
inductive PyVal
  | pyBool (b : Bool)
  | pyStr (s : String)
deriving DecidableEq

/-- Python truthiness of a stored value, as applied by
`if self.shared_state.get(...)` in `system2.py`. -/
def truthy : PyVal → Bool
  | .pyBool b => b
  | .pyStr s => !(s == "")

/-- The shared manager dict of `system2.py` (`manager.dict()`), embedded as an
association list from string keys to values. -/
abbrev Dict := List (String × PyVal)

/-- Dictionary lookup: `shared_state[k]` as an `Option`. -/
def dget (f : Dict) (k : String) : Option PyVal :=
  match f with
  | [] => none
  | (k', v) :: rest => if k' = k then some v else dget rest k

/-- Dictionary write `shared_state[k] = v`: replace the binding if the key is
present, append it otherwise. -/
def dset (f : Dict) (k : String) (v : PyVal) : Dict :=
  match f with
  | [] => [(k, v)]
  | (k', v') :: rest => if k' = k then (k, v) :: rest else (k', v') :: dset rest k v

/-- `shared_state.get(k, False)` interpreted as a condition: absent keys default
to `False`, present values go through truthiness. -/
def readFlag (f : Dict) (k : String) : Bool :=
  truthy ((dget f k).getD (.pyBool false))

/-- Program counter for `TalkingThread.start_talking` (`system2.py`, lines
103–170).  Each constructor is one atomic access to the shared dict (manager
dict operations are individually atomic); `talkLoop` stands for the bounded
talking loop, whose body touches only queues and pipes, never the dict. -/
inductive Pc
  | checkPeerTalking
  | setWants
  | checkCollision
  | setTalking
  | clearWants
  | talkLoop
  | clearTalking
  | done
deriving DecidableEq

/-- One agent executing `start_talking`.  `interruptDraw` is the outcome of the
`random.random() < self.interrupt_probability` draw at line 111; `iters` is the
number of remaining iterations of the talking loop (the loop runs while
`time.time() - start_time < talking_duration`, and `break`s when the stop event
is set, so any single call executes some finite number of body iterations —
`iters` abstracts exactly that count). -/
structure Agent where
  process_name : String
  interruptDraw : Bool
  iters : Nat
  pc : Pc
deriving DecidableEq

/-- Lexicographic comparison of character lists by code point, the order Python
uses for `str < str` / `str > str`. -/
def charListLt : List Char → List Char → Bool
  | [], [] => false
  | [], _ :: _ => true
  | _ :: _, [] => false
  | a :: as, b :: bs =>
    if a.toNat < b.toNat then true
    else if b.toNat < a.toNat then false
    else charListLt as bs

/-- Python's `<` on strings. -/
def pyStrLt (a b : String) : Bool :=
  charListLt a.data b.data

/-- `other_process_name = "Process1" if self.process_name == "Process2" else "Process2"`
(`system2.py`, lines 104–106). -/
def other_process_name (name : String) : String :=
  if name = "Process2" then "Process1" else "Process2"

/-- One atomic step of `start_talking`.  Each arm is a direct transcription of
the corresponding lines of `system2.py`:
`checkPeerTalking` = lines 109–120 (peer-talking check and interrupt draw),
`setWants` = line 123, `checkCollision` = lines 129–137 (note line 131: the
process whose name compares **greater** takes the yield branch),
`setTalking` = line 140, `clearWants` = line 141, `talkLoop` = lines 151–166,
`clearTalking` = line 169. -/
def stepAgent (a : Agent) (f : Dict) : Agent × Dict :=
  let other := other_process_name a.process_name
  match a.pc with
  | .checkPeerTalking =>
    if readFlag f (other ++ "_is_talking") then
      if a.interruptDraw then ({ a with pc := .setWants }, f)
      else ({ a with pc := .done }, f)
    else ({ a with pc := .setWants }, f)
  | .setWants =>
    ({ a with pc := .checkCollision }, dset f (a.process_name ++ "_wants_to_talk") (.pyBool true))
  | .checkCollision =>
    if readFlag f (other ++ "_wants_to_talk") then
      if pyStrLt other a.process_name then
        ({ a with pc := .done }, dset f (a.process_name ++ "_wants_to_talk") (.pyBool false))
      else
        ({ a with pc := .setTalking }, dset f (other ++ "_wants_to_talk") (.pyBool false))
    else ({ a with pc := .setTalking }, f)
  | .setTalking =>
    ({ a with pc := .clearWants }, dset f (a.process_name ++ "_is_talking") (.pyBool true))
  | .clearWants =>
    ({ a with pc := .talkLoop }, dset f (a.process_name ++ "_wants_to_talk") (.pyBool false))
  | .talkLoop =>
    match a.iters with
    | 0 => ({ a with pc := .clearTalking }, f)
    | n + 1 => ({ a with iters := n }, f)
  | .clearTalking =>
    ({ a with pc := .done }, dset f (a.process_name ++ "_is_talking") (.pyBool false))
  | .done => (a, f)

/-- The two-agent system: both `TalkingThread`s plus the shared dict. -/
structure Sys where
  a1 : Agent
  a2 : Agent
  fab : Dict
deriving DecidableEq

/-- Interleaving step: `true` lets agent 1 take its next atomic action,
`false` lets agent 2. -/
def sysStep (s : Sys) (w : Bool) : Sys :=
  match w with
  | true => { s with a1 := (stepAgent s.a1 s.fab).1, fab := (stepAgent s.a1 s.fab).2 }
  | false => { s with a2 := (stepAgent s.a2 s.fab).1, fab := (stepAgent s.a2 s.fab).2 }

/-- Run a schedule (an arbitrary interleaving of the two agents). -/
def exec (s : Sys) : List Bool → Sys
  | [] => s
  | w :: ws => exec (sysStep s w) ws

/-- A fabric whose four flags are honest booleans. -/
def mkFab (t1 t2 w1 w2 : Bool) : Dict :=
  [("Process1_is_talking", .pyBool t1), ("Process2_is_talking", .pyBool t2),
   ("Process1_wants_to_talk", .pyBool w1), ("Process2_wants_to_talk", .pyBool w2)]

/-- The initial shared dict set up in `system2.py` main (lines 239–242). -/
def initFabric : Dict := mkFab false false false false

/-- Both agents about to enter `start_talking`, with given interrupt draws and
talk-loop iteration counts, over the freshly initialised fabric. -/
def initSys (d1 d2 : Bool) (n1 n2 : Nat) : Sys :=
  ⟨⟨"Process1", d1, n1, .checkPeerTalking⟩, ⟨"Process2", d2, n2, .checkPeerTalking⟩, initFabric⟩

/-- Select an agent of the system (`true` = agent 1). -/
def agentOf (s : Sys) (i : Bool) : Agent :=
  if i then s.a1 else s.a2

/-- Program counters at which the agent's own `wants_to_talk` flag is certainly
`False`: before line 123 has executed, and from line 151 on (line 141 or line
133 has cleared it; the peer only ever clears, never sets, this key). -/
def wantsClearPc : Pc → Bool
  | .checkCollision => false
  | .setTalking => false
  | .clearWants => false
  | _ => true

/-- Program counters at which the agent's own `is_talking` flag is certainly
`False`: before line 140 has executed and after line 169 has. -/
def talkClearPc : Pc → Bool
  | .clearWants => false
  | .talkLoop => false
  | .clearTalking => false
  | _ => true

/-- Structural invariant of every reachable state of the two-agent system:
names are fixed, the fabric holds four boolean flags, and each agent's own
flags are `False` at the program counters given by `wantsClearPc` /
`talkClearPc`. -/
def SysInv (s : Sys) : Prop :=
  s.a1.process_name = "Process1" ∧ s.a2.process_name = "Process2" ∧
  ∃ t1 t2 w1 w2 : Bool,
    s.fab = mkFab t1 t2 w1 w2 ∧
    (wantsClearPc s.a1.pc = true → w1 = false) ∧
    (wantsClearPc s.a2.pc = true → w2 = false) ∧
    (talkClearPc s.a1.pc = true → t1 = false) ∧
    (talkClearPc s.a2.pc = true → t2 = false)

/-!  Embedding of `state.py` (`TalkingProcess`). -/

/-- The four states of `TalkingProcess.states` (`state.py`, line 8).  Python's
`'yield'` is rendered `yld` because `yield` is reserved in Lean. -/
inductive St
  | idle
  | intending
  | talking
  | yld
deriving DecidableEq

/-- The fields of a `TalkingProcess` (`state.py`, `__init__`, lines 10–28).
Times, durations and probabilities are rationals; `talk_start_time` and
`talk_duration` start out as Python `None`, i.e. `Option.none`. -/
structure TP where
  process_id : String
  p_k : ℚ
  min_talk_duration : ℚ
  max_talk_duration : ℚ
  other_is_talking : Bool
  stop_event : Bool
  talk_start_time : Option ℚ
  talk_duration : Option ℚ
  state : St
deriving DecidableEq

/-- `TalkingProcess.__init__`: stores the arguments unvalidated and starts the
machine in `idle`.  The source performs no check on the duration bounds. -/
def TP.init (process_id : String) (p_k min_talk_duration max_talk_duration : ℚ) : TP :=
  ⟨process_id, p_k, min_talk_duration, max_talk_duration, false, false, none, none, .idle⟩

/-- Python `str` applied to a boolean, as in `str(self.other_is_talking)`. -/
def pyStrOfBool (b : Bool) : String :=
  if b then "True" else "False"

/-- `should_start_talking` (lines 74–76): `random.random() < self.p_k`, with the
draw `r ∈ [0, 1)` passed in. -/
def TP.should_start_talking (p : TP) (r : ℚ) : Bool :=
  decide (r < p.p_k)

/-- `should_interrupt` (lines 90–95): `self.process_id > str(self.other_is_talking)`.
Note the source compares the process id against the *string rendering of the
boolean* `other_is_talking`, not against the peer's id. -/
def TP.should_interrupt (p : TP) : Bool :=
  pyStrLt (pyStrOfBool p.other_is_talking) p.process_id

/-- `can_talk` (lines 78–84): true when the other is not talking, otherwise
decided by `should_interrupt`.  (The lock only guards this read sequence.) -/
def TP.can_talk (p : TP) : Bool :=
  if !p.other_is_talking then true else p.should_interrupt

/-- `should_yield` (lines 86–88). -/
def TP.should_yield (p : TP) : Bool :=
  p.other_is_talking && !p.should_interrupt

/-- `should_stop_talking` (lines 97–103).  Returns `none` for the case Python
would raise a `TypeError` in: `talk_start_time` set but `talk_duration` still
`None` (the comparison `float >= None`). -/
def TP.should_stop_talking (p : TP) (now : ℚ) : Option Bool :=
  if p.stop_event then some true
  else
    match p.talk_start_time with
    | none => some false
    | some s => p.talk_duration.map (fun d => decide (now - s ≥ d))

/-- `random.uniform(a, b) = a + (b - a) * random.random()`, with the unit draw
`u ∈ [0, 1]` passed in. -/
def pyUniform (a b u : ℚ) : ℚ :=
  a + (b - a) * u

/-- `set_talking_duration` (lines 105–108): samples the duration and records the
start time, both at the moment the transition fires. -/
def TP.set_talking_duration (p : TP) (u now : ℚ) : TP :=
  { p with
    talk_duration := some (pyUniform p.min_talk_duration p.max_talk_duration u),
    talk_start_time := some now }

/-- One iteration of the driver loop `run` (lines 110–126), including the
machine's transition guards (`state.py`, lines 39–72): `r` is the
`random.random()` draw consumed by `should_start_talking`, `u` the unit draw
consumed by `set_talking_duration`, `now` the current time.  Returns `none`
when `should_stop_talking` would raise.  Conditions are evaluated once per
iteration, as their values are deterministic within it. -/
def TP.runStep (p : TP) (r u now : ℚ) : Option TP :=
  match p.state with
  | .idle =>
    some (if p.should_start_talking r then { p with state := .intending } else p)
  | .intending =>
    if p.can_talk then some (TP.set_talking_duration { p with state := .talking } u now)
    else if p.should_yield then some { p with state := .yld }
    else some p
  | .talking =>
    match p.should_stop_talking now with
    | none => none
    | some b => some (if b then { p with state := .idle } else p)
  | .yld => some { p with state := .idle }

/-- The driver loop over a list of per-iteration inputs `(r, u, now)`. -/
def TP.runMany (p : TP) : List (ℚ × ℚ × ℚ) → Option TP
  | [] => some p
  | (r, u, now) :: rest =>
    match p.runStep r u now with
    | none => none
    | some p' => p'.runMany rest

/-- Whether the process holds the floor, as observed by the peer in
`example_usage` (`state.py`, lines 151–152): `p.state == 'talking'`. -/
def TP.holdsFloor (p : TP) : Bool :=
  decide (p.state = St.talking)

/-! ## Invariant machinery for the two-agent system -/

/-- The invariant holds initially. -/
theorem sysInv_init (d1 d2 : Bool) (n1 n2 : Nat) : SysInv (initSys d1 d2 n1 n2) :=
  ⟨rfl, rfl, false, false, false, false, rfl,
    fun _ => rfl, fun _ => rfl, fun _ => rfl, fun _ => rfl⟩

/-- The invariant is preserved by every atomic step of either agent. -/
theorem sysInv_step (s : Sys) (w : Bool) (h : SysInv s) : SysInv (sysStep s w) := by
  obtain ⟨a1, a2, fab⟩ := s
  obtain ⟨nm1, d1, it1, pc1⟩ := a1
  obtain ⟨nm2, d2, it2, pc2⟩ := a2
  obtain ⟨h1, h2, t1, t2, w1, w2, hfab, hw1, hw2, ht1, ht2⟩ := h
  replace h1 : nm1 = "Process1" := h1
  replace h2 : nm2 = "Process2" := h2
  replace hfab : fab = mkFab t1 t2 w1 w2 := hfab
  subst h1; subst h2; subst hfab
  cases w with
  | true =>
    cases pc1 with
    | checkPeerTalking =>
      cases t2 <;> cases d1 <;>
        exact ⟨rfl, rfl, t1, _, w1, w2, rfl, fun _ => hw1 rfl, hw2, fun _ => ht1 rfl, ht2⟩
    | setWants =>
      exact ⟨rfl, rfl, t1, t2, true, w2, rfl, fun h => absurd h Bool.false_ne_true, hw2, fun _ => ht1 rfl, ht2⟩
    | checkCollision =>
      cases w2 with
      | false =>
        exact ⟨rfl, rfl, t1, t2, w1, false, rfl, fun h => absurd h Bool.false_ne_true, hw2, fun _ => ht1 rfl, ht2⟩
      | true =>
        exact ⟨rfl, rfl, t1, t2, w1, false, rfl, fun h => absurd h Bool.false_ne_true, fun _ => rfl,
          fun _ => ht1 rfl, ht2⟩
    | setTalking =>
      exact ⟨rfl, rfl, true, t2, w1, w2, rfl, fun h => absurd h Bool.false_ne_true, hw2, fun h => absurd h Bool.false_ne_true, ht2⟩
    | clearWants =>
      exact ⟨rfl, rfl, t1, t2, false, w2, rfl, fun _ => rfl, hw2, fun h => absurd h Bool.false_ne_true, ht2⟩
    | talkLoop =>
      cases it1 <;>
        exact ⟨rfl, rfl, t1, t2, w1, w2, rfl, fun _ => hw1 rfl, hw2, fun h => absurd h Bool.false_ne_true, ht2⟩
    | clearTalking =>
      exact ⟨rfl, rfl, false, t2, w1, w2, rfl, fun _ => hw1 rfl, hw2, fun _ => rfl, ht2⟩
    | done =>
      exact ⟨rfl, rfl, t1, t2, w1, w2, rfl, hw1, hw2, ht1, ht2⟩
  | false =>
    cases pc2 with
    | checkPeerTalking =>
      cases t1 <;> cases d2 <;>
        exact ⟨rfl, rfl, _, t2, w1, w2, rfl, hw1, fun _ => hw2 rfl, ht1, fun _ => ht2 rfl⟩
    | setWants =>
      exact ⟨rfl, rfl, t1, t2, w1, true, rfl, hw1, fun h => absurd h Bool.false_ne_true, ht1, fun _ => ht2 rfl⟩
    | checkCollision =>
      cases w1 with
      | false =>
        exact ⟨rfl, rfl, t1, t2, false, w2, rfl, hw1, fun h => absurd h Bool.false_ne_true, ht1, fun _ => ht2 rfl⟩
      | true =>
        exact ⟨rfl, rfl, t1, t2, true, false, rfl, hw1, fun _ => rfl, ht1, fun _ => ht2 rfl⟩
    | setTalking =>
      exact ⟨rfl, rfl, t1, true, w1, w2, rfl, hw1, fun h => absurd h Bool.false_ne_true, ht1, fun h => absurd h Bool.false_ne_true⟩
    | clearWants =>
      exact ⟨rfl, rfl, t1, t2, w1, false, rfl, hw1, fun _ => rfl, ht1, fun h => absurd h Bool.false_ne_true⟩
    | talkLoop =>
      cases it2 <;>
        exact ⟨rfl, rfl, t1, t2, w1, w2, rfl, hw1, fun _ => hw2 rfl, ht1, fun h => absurd h Bool.false_ne_true⟩
    | clearTalking =>
      exact ⟨rfl, rfl, t1, false, w1, w2, rfl, hw1, fun _ => hw2 rfl, ht1, fun _ => rfl⟩
    | done =>
      exact ⟨rfl, rfl, t1, t2, w1, w2, rfl, hw1, hw2, ht1, ht2⟩

/-- The invariant holds along every schedule. -/
theorem sysInv_exec (s : Sys) (sched : List Bool) (h : SysInv s) : SysInv (exec s sched) := by
  induction sched generalizing s with
  | nil => exact h
  | cons w ws ih => exact ih _ (sysInv_step s w h)

/-- From the invariant: an agent at a `wantsClearPc` program counter has its own
`wants_to_talk` fabric entry equal to `False`. -/
theorem sysInv_wants_clear (s : Sys) (hinv : SysInv s) (i : Bool)
    (h : wantsClearPc (agentOf s i).pc = true) :
    dget s.fab ((agentOf s i).process_name ++ "_wants_to_talk") = some (PyVal.pyBool false) := by
  obtain ⟨h1, h2, t1, t2, w1, w2, hfab, hw1, hw2, ht1, ht2⟩ := hinv
  cases i with
  | true =>
    have hw : w1 = false := hw1 h
    subst hw
    rw [hfab, show (agentOf s true).process_name = "Process1" from h1]
    rfl
  | false =>
    have hw : w2 = false := hw2 h
    subst hw
    rw [hfab, show (agentOf s false).process_name = "Process2" from h2]
    rfl

/-- From the invariant: an agent at a `talkClearPc` program counter has its own
`is_talking` fabric entry equal to `False`. -/
theorem sysInv_talk_clear (s : Sys) (hinv : SysInv s) (i : Bool)
    (h : talkClearPc (agentOf s i).pc = true) :
    dget s.fab ((agentOf s i).process_name ++ "_is_talking") = some (PyVal.pyBool false) := by
  obtain ⟨h1, h2, t1, t2, w1, w2, hfab, hw1, hw2, ht1, ht2⟩ := hinv
  cases i with
  | true =>
    have ht : t1 = false := ht1 h
    subst ht
    rw [hfab, show (agentOf s true).process_name = "Process1" from h1]
    rfl
  | false =>
    have ht : t2 = false := ht2 h
    subst ht
    rw [hfab, show (agentOf s false).process_name = "Process2" from h2]
    rfl

/-! ## Claims about `system2.py` -/

/-- Claim C1: the claim asserts that no interleaving of the two agents'
floor-acquisition steps can leave both `Process1_is_talking` and
`Process2_is_talking` true simultaneously.  The code violates this: starting
from the initialised fabric, let agent 1 run `start_talking` to the point where
it has set its `is_talking` flag, then let agent 2 enter `start_talking` with a
successful interrupt draw — agent 2 sets its own `is_talking` flag while agent
1's is still set, so both flags are true at once. -/
theorem both_agents_talking_reachable :
    readFlag (exec (initSys false true 1 1)
        [true, true, true, true, true, false, false, false, false]).fab
      "Process1_is_talking" = true ∧
    readFlag (exec (initSys false true 1 1)
        [true, true, true, true, true, false, false, false, false]).fab
      "Process2_is_talking" = true := by
  decide

/-- Claim C2, counterexample: after a genuine collision (both wants flags
observed true), the agent whose identity sorts **greater** ("Process2") does
not win — it yields (`pc = done`, never having set its `is_talking` flag,
its wants flag cleared), while the lesser identity "Process1" proceeds to
talking.  This is the opposite of the claimed outcome. -/
theorem collision_greater_identity_yields :
    (readFlag (exec (initSys false false 1 1) [true, false, true, false]).fab
        "Process1_wants_to_talk" = true ∧
     readFlag (exec (initSys false false 1 1) [true, false, true, false]).fab
        "Process2_wants_to_talk" = true) ∧
    ((exec (initSys false false 1 1) [true, false, true, false, false]).a2.pc = Pc.done ∧
     readFlag (exec (initSys false false 1 1) [true, false, true, false, false]).fab
        "Process2_is_talking" = false ∧
     readFlag (exec (initSys false false 1 1) [true, false, true, false, false]).fab
        "Process2_wants_to_talk" = false) ∧
    ((exec (initSys false false 1 1)
        [true, false, true, false, false, true, true]).a1.pc = Pc.clearWants ∧
     readFlag (exec (initSys false false 1 1)
        [true, false, true, false, false, true, true]).fab "Process1_is_talking" = true) := by
  decide

/-- Claim C2, as amended: in the collision branch (`system2.py`, lines
129–137), the agent whose identity sorts **greater** clears its own
`wants_to_talk` flag and yields, and the agent whose identity does not sort
greater clears the *peer's* `wants_to_talk` flag and proceeds toward talking. -/
theorem collision_lesser_identity_wins (a : Agent) (f : Dict)
    (hpc : a.pc = Pc.checkCollision)
    (hw : readFlag f (other_process_name a.process_name ++ "_wants_to_talk") = true) :
    (pyStrLt (other_process_name a.process_name) a.process_name = true →
      stepAgent a f =
        ({ a with pc := Pc.done },
         dset f (a.process_name ++ "_wants_to_talk") (PyVal.pyBool false))) ∧
    (pyStrLt (other_process_name a.process_name) a.process_name = false →
      stepAgent a f =
        ({ a with pc := Pc.setTalking },
         dset f (other_process_name a.process_name ++ "_wants_to_talk") (PyVal.pyBool false))) := by
  obtain ⟨nm, d, it, pc⟩ := a
  replace hpc : pc = Pc.checkCollision := hpc
  subst hpc
  refine ⟨fun hlt => ?_, fun hlt => ?_⟩
  · simp only [stepAgent, hw, hlt, reduceIte]
  · simp only [stepAgent, hw, hlt, reduceIte, Bool.false_eq_true, if_false]

/-- Witness for `collision_lesser_identity_wins` at the concrete collision of
the two processes: "Process2" (the greater identity) yields. -/
theorem collision_lesser_identity_wins_witness :
    pyStrLt (other_process_name "Process2") "Process2" = true ∧
    stepAgent ⟨"Process2", false, 1, Pc.checkCollision⟩ (mkFab false false true true) =
      (⟨"Process2", false, 1, Pc.done⟩,
       dset (mkFab false false true true) ("Process2" ++ "_wants_to_talk") (PyVal.pyBool false)) :=
  ⟨by decide,
   (collision_lesser_identity_wins ⟨"Process2", false, 1, Pc.checkCollision⟩
      (mkFab false false true true) rfl (by decide)).1 (by decide)⟩

/-- Claim C3, counterexample: "Process1" sorts lower than "Process2", so under
the claimed identity tie-break it must never be granted the floor while
"Process2" holds it.  Yet after agent 2 has acquired the floor, agent 1 with a
successful interrupt draw is granted the floor (it reaches its talking loop
with its `is_talking` flag set) while `Process2_is_talking` is still true:
interruption in the code is decided by the random draw, not by identity. -/
theorem interrupt_granted_to_lesser_identity :
    pyStrLt "Process1" "Process2" = true ∧
    readFlag (exec (initSys true false 1 1)
        [false, false, false, false, false, true, true, true, true]).fab
      "Process2_is_talking" = true ∧
    readFlag (exec (initSys true false 1 1)
        [false, false, false, false, false, true, true, true, true]).fab
      "Process1_is_talking" = true ∧
    (exec (initSys true false 1 1)
        [false, false, false, false, false, true, true, true, true]).a1.pc = Pc.clearWants := by
  decide

/-- Claim C3, as amended: when the peer's `is_talking` entry reads true
(`system2.py`, lines 109–117), whether this agent proceeds toward the floor is
decided solely by the `interrupt_probability` Bernoulli draw: a successful draw
proceeds (identity is not consulted), a failed draw returns without acquiring
anything and without touching the fabric. -/
theorem interrupt_decided_by_draw (a : Agent) (f : Dict)
    (hpc : a.pc = Pc.checkPeerTalking)
    (ht : readFlag f (other_process_name a.process_name ++ "_is_talking") = true) :
    (a.interruptDraw = true → stepAgent a f = ({ a with pc := Pc.setWants }, f)) ∧
    (a.interruptDraw = false → stepAgent a f = ({ a with pc := Pc.done }, f)) := by
  obtain ⟨nm, d, it, pc⟩ := a
  replace hpc : pc = Pc.checkPeerTalking := hpc
  subst hpc
  refine ⟨fun hd => ?_, fun hd => ?_⟩
  · replace hd : d = true := hd
    subst hd
    simp only [stepAgent, ht, reduceIte]
  · replace hd : d = false := hd
    subst hd
    simp only [stepAgent, ht, reduceIte, Bool.false_eq_true, if_false]

/-- Witness for `interrupt_decided_by_draw`: agent "Process1", whose identity
sorts lower, proceeds past a talking peer on a successful draw. -/
theorem interrupt_decided_by_draw_witness :
    readFlag (mkFab false true false false) (other_process_name "Process1" ++ "_is_talking") = true ∧
    stepAgent ⟨"Process1", true, 1, Pc.checkPeerTalking⟩ (mkFab false true false false) =
      (⟨"Process1", true, 1, Pc.setWants⟩, mkFab false true false false) :=
  ⟨by decide,
   (interrupt_decided_by_draw ⟨"Process1", true, 1, Pc.checkPeerTalking⟩
      (mkFab false true false false) rfl (by decide)).1 rfl⟩

/-- Claim C5, counterexample: a *malformed* fabric entry is not treated as
"peer not talking".  With the peer's `is_talking` entry holding the non-boolean
truthy value `"garbage"`, an agent whose interrupt draw fails yields at once
(`pc = done`, the early return of line 117), whereas with the entry absent the
same agent proceeds to declare its intent — so the malformed read is *not*
handled like the absent/uncontended case. -/
theorem malformed_entry_treated_as_talking :
    (stepAgent ⟨"Process1", false, 1, Pc.checkPeerTalking⟩
        [("Process2_is_talking", PyVal.pyStr "garbage")]).1.pc = Pc.done ∧
    (stepAgent ⟨"Process1", false, 1, Pc.checkPeerTalking⟩ ([] : Dict)).1.pc = Pc.setWants := by
  decide

/-- Claim C5, as amended: an *absent* fabric entry for the peer is read as
`False` by `.get(key, False)`, so the attempt proceeds exactly as in the
uncontended case and no condition can fail: with the peer's `is_talking` entry
missing the agent proceeds to declare intent, and with the peer's
`wants_to_talk` entry missing the collision check passes through to talking.
(Present malformed entries, by contrast, are interpreted by truthiness.) -/
theorem absent_entries_fail_open (a : Agent) (f : Dict) :
    (a.pc = Pc.checkPeerTalking →
      dget f (other_process_name a.process_name ++ "_is_talking") = none →
      stepAgent a f = ({ a with pc := Pc.setWants }, f)) ∧
    (a.pc = Pc.checkCollision →
      dget f (other_process_name a.process_name ++ "_wants_to_talk") = none →
      stepAgent a f = ({ a with pc := Pc.setTalking }, f)) := by
  obtain ⟨nm, d, it, pc⟩ := a
  refine ⟨fun hpc hnone => ?_, fun hpc hnone => ?_⟩
  · replace hpc : pc = Pc.checkPeerTalking := hpc
    subst hpc
    have hr : readFlag f (other_process_name nm ++ "_is_talking") = false := by
      simp only [readFlag, hnone, Option.getD, truthy]
    simp only [stepAgent, hr, Bool.false_eq_true, if_false]
  · replace hpc : pc = Pc.checkCollision := hpc
    subst hpc
    have hr : readFlag f (other_process_name nm ++ "_wants_to_talk") = false := by
      simp only [readFlag, hnone, Option.getD, truthy]
    simp only [stepAgent, hr, Bool.false_eq_true, if_false]

/-- Witness for `absent_entries_fail_open` on the empty fabric: both reads are
absent and both steps proceed as uncontended. -/
theorem absent_entries_fail_open_witness :
    stepAgent ⟨"Process1", false, 1, Pc.checkPeerTalking⟩ ([] : Dict) =
      (⟨"Process1", false, 1, Pc.setWants⟩, ([] : Dict)) ∧
    stepAgent ⟨"Process1", false, 1, Pc.checkCollision⟩ ([] : Dict) =
      (⟨"Process1", false, 1, Pc.setTalking⟩, ([] : Dict)) :=
  ⟨(absent_entries_fail_open ⟨"Process1", false, 1, Pc.checkPeerTalking⟩ ([] : Dict)).1 rfl rfl,
   (absent_entries_fail_open ⟨"Process1", false, 1, Pc.checkCollision⟩ ([] : Dict)).2 rfl rfl⟩

/-- Claim C4: for every reachable state of the two-agent system and each agent,
once an acquisition attempt has ended — successfully (the agent is in its
talking loop, holding the floor) or by denial/completion (`pc = done`) — the
agent's own `wants_to_talk` fabric entry is `False`: intent is cleared the
moment the floor is granted (line 141) or denied (line 133), and the attempt
that never declared intent (the early return of line 117) left it untouched
and hence still `False`. -/
theorem acquisition_end_clears_wants (d1 d2 : Bool) (n1 n2 : Nat) (sched : List Bool) (i : Bool)
    (h : (agentOf (exec (initSys d1 d2 n1 n2) sched) i).pc = Pc.talkLoop ∨
         (agentOf (exec (initSys d1 d2 n1 n2) sched) i).pc = Pc.done) :
    dget (exec (initSys d1 d2 n1 n2) sched).fab
        ((agentOf (exec (initSys d1 d2 n1 n2) sched) i).process_name ++ "_wants_to_talk") =
      some (PyVal.pyBool false) := by
  refine sysInv_wants_clear _ (sysInv_exec _ sched (sysInv_init d1 d2 n1 n2)) i ?_
  rcases h with h | h <;> (rw [h]; rfl)

/-- Witness for `acquisition_end_clears_wants`: agent 1 after a full
uncontended solo run of `start_talking`. -/
theorem acquisition_end_clears_wants_witness :
    (agentOf (exec (initSys false false 0 0) (List.replicate 7 true)) true).pc = Pc.done ∧
    dget (exec (initSys false false 0 0) (List.replicate 7 true)).fab
        ((agentOf (exec (initSys false false 0 0) (List.replicate 7 true)) true).process_name ++
          "_wants_to_talk") =
      some (PyVal.pyBool false) :=
  ⟨by decide,
   acquisition_end_clears_wants false false 0 0 (List.replicate 7 true) true (Or.inr (by decide))⟩

/-- Claim C10: on every return path of `start_talking` (every interleaving that
leaves an agent at `pc = done`), the agent's own fabric flags are restored:
its `wants_to_talk` entry is `False`, and its `is_talking` entry is `False` —
in particular the talking loop, whether it ran to its sampled duration or was
cut short by the stop event, is always followed by the line-169 clear. -/
theorem start_talking_restores_flags (d1 d2 : Bool) (n1 n2 : Nat) (sched : List Bool) (i : Bool)
    (h : (agentOf (exec (initSys d1 d2 n1 n2) sched) i).pc = Pc.done) :
    dget (exec (initSys d1 d2 n1 n2) sched).fab
        ((agentOf (exec (initSys d1 d2 n1 n2) sched) i).process_name ++ "_wants_to_talk") =
      some (PyVal.pyBool false) ∧
    dget (exec (initSys d1 d2 n1 n2) sched).fab
        ((agentOf (exec (initSys d1 d2 n1 n2) sched) i).process_name ++ "_is_talking") =
      some (PyVal.pyBool false) := by
  have hinv := sysInv_exec _ sched (sysInv_init d1 d2 n1 n2)
  refine ⟨sysInv_wants_clear _ hinv i ?_, sysInv_talk_clear _ hinv i ?_⟩
  · rw [h]; rfl
  · rw [h]; rfl

/-- Witness for `start_talking_restores_flags`: agent 2 after a solo run that
yields at the interrupt check while agent 1 holds the floor. -/
theorem start_talking_restores_flags_witness :
    (agentOf (exec (initSys false false 0 0) [true, true, true, true, true, false]) false).pc =
      Pc.done ∧
    (dget (exec (initSys false false 0 0) [true, true, true, true, true, false]).fab
        ((agentOf (exec (initSys false false 0 0) [true, true, true, true, true, false])
            false).process_name ++ "_wants_to_talk") = some (PyVal.pyBool false) ∧
     dget (exec (initSys false false 0 0) [true, true, true, true, true, false]).fab
        ((agentOf (exec (initSys false false 0 0) [true, true, true, true, true, false])
            false).process_name ++ "_is_talking") = some (PyVal.pyBool false)) :=
  ⟨by decide,
   start_talking_restores_flags false false 0 0 [true, true, true, true, true, false] false
     (by decide)⟩

/-! ## Claims about `state.py` -/

/-- Claim C6: on the transition into `talking` (`begin_talking`, with
`set_talking_duration` as its after-callback), the talk duration is sampled as
`random.uniform(min_talk_duration, max_talk_duration)`; for
`min_talk_duration ≤ max_talk_duration` and a unit draw `u ∈ [0, 1]`, the
sampled duration lies in the closed interval, and the absolute start time is
recorded at that same moment. -/
theorem talk_duration_sampled_in_bounds (p : TP) (r u now : ℚ)
    (hst : p.state = St.intending) (hcan : p.can_talk = true)
    (hmm : p.min_talk_duration ≤ p.max_talk_duration)
    (hu0 : 0 ≤ u) (hu1 : u ≤ 1) :
    ∃ p', p.runStep r u now = some p' ∧ p'.state = St.talking ∧
      ∃ d, p'.talk_duration = some d ∧
        p.min_talk_duration ≤ d ∧ d ≤ p.max_talk_duration ∧
        p'.talk_start_time = some now := by
  refine ⟨TP.set_talking_duration { p with state := St.talking } u now, ?_, rfl, ?_⟩
  · obtain ⟨pid, pk, mn, mx, oth, stp, tst, tdur, st⟩ := p
    replace hst : st = St.intending := hst
    subst hst
    simp only [TP.runStep, hcan, reduceIte]
  · refine ⟨pyUniform p.min_talk_duration p.max_talk_duration u, rfl, ?_, ?_, rfl⟩
    · have hnn : 0 ≤ (p.max_talk_duration - p.min_talk_duration) * u :=
        mul_nonneg (sub_nonneg.mpr hmm) hu0
      simp only [pyUniform]
      linarith
    · have hub : (p.max_talk_duration - p.min_talk_duration) * u ≤
          p.max_talk_duration - p.min_talk_duration :=
        mul_le_of_le_one_right (sub_nonneg.mpr hmm) hu1
      simp only [pyUniform]
      linarith

/-- Witness for `talk_duration_sampled_in_bounds`: a process with bounds
`[1, 5]` entering `talking` at time 0 with unit draw 0. -/
theorem talk_duration_sampled_in_bounds_witness :
    ∃ p', ({ TP.init "P1" 1 1 5 with state := St.intending } : TP).runStep 0 0 0 = some p' ∧
      p'.state = St.talking ∧
      ∃ d, p'.talk_duration = some d ∧
        ({ TP.init "P1" 1 1 5 with state := St.intending } : TP).min_talk_duration ≤ d ∧
        d ≤ ({ TP.init "P1" 1 1 5 with state := St.intending } : TP).max_talk_duration ∧
        p'.talk_start_time = some 0 :=
  talk_duration_sampled_in_bounds { TP.init "P1" 1 1 5 with state := St.intending } 0 0 0
    rfl (by decide) (by decide) (by decide) (by decide)

/-- Claim C7: for a process in `talking`, one driver iteration moves it back to
`idle` exactly when the stop event is set or the elapsed time since
`talk_start_time` has reached the sampled `talk_duration`
(`should_stop_talking`, lines 97–103); on that transition the process no
longer holds the floor (the peer's observation `state == 'talking'` becomes
false).  The hypothesis `hdur` is the reachability fact that the start time and
the duration are set together (`set_talking_duration`). -/
theorem talking_stop_iff (p : TP) (r u now : ℚ)
    (hst : p.state = St.talking)
    (hdur : p.talk_start_time.isSome = true → p.talk_duration.isSome = true) :
    ∃ p', p.runStep r u now = some p' ∧
      (p'.state = St.idle ↔
        (p.stop_event = true ∨
          ∃ s d, p.talk_start_time = some s ∧ p.talk_duration = some d ∧ now - s ≥ d)) ∧
      (p'.state = St.idle → p'.holdsFloor = false) ∧
      (p'.state ≠ St.idle → p' = p) := by
  obtain ⟨pid, pk, mn, mx, oth, stp, tst, tdur, st⟩ := p
  replace hst : st = St.talking := hst
  subst hst
  cases stp with
  | true =>
    refine ⟨⟨pid, pk, mn, mx, oth, true, tst, tdur, St.idle⟩, rfl, ?_, ?_, ?_⟩
    · exact iff_of_true rfl (Or.inl rfl)
    · exact fun _ => rfl
    · exact fun hne => absurd rfl hne
  | false =>
    cases tst with
    | none =>
      refine ⟨⟨pid, pk, mn, mx, oth, false, none, tdur, St.talking⟩, rfl, ?_, ?_, ?_⟩
      · refine iff_of_false (fun h => nomatch h) ?_
        rintro (h | ⟨s, d, hs, hd, hge⟩)
        · exact nomatch h
        · exact nomatch hs
      · exact fun h => nomatch h
      · exact fun _ => rfl
    | some s =>
      cases tdur with
      | none => exact Bool.noConfusion (hdur rfl)
      | some d =>
        have hrun : TP.runStep ⟨pid, pk, mn, mx, oth, false, some s, some d, St.talking⟩ r u now
            = some (if decide (now - s ≥ d) = true
                then ⟨pid, pk, mn, mx, oth, false, some s, some d, St.idle⟩
                else ⟨pid, pk, mn, mx, oth, false, some s, some d, St.talking⟩) := rfl
        cases hdec : decide (now - s ≥ d) with
        | true =>
          rw [hdec] at hrun
          simp only [reduceIte] at hrun
          refine ⟨_, hrun, ?_, ?_, ?_⟩
          · exact iff_of_true rfl (Or.inr ⟨s, d, rfl, rfl, of_decide_eq_true hdec⟩)
          · exact fun _ => rfl
          · exact fun hne => absurd rfl hne
        | false =>
          rw [hdec] at hrun
          simp only [Bool.false_eq_true, if_false] at hrun
          refine ⟨_, hrun, ?_, ?_, ?_⟩
          · refine iff_of_false (fun h => nomatch h) ?_
            rintro (h | ⟨s', d', hs', hd', hge'⟩)
            · exact nomatch h
            · obtain rfl : s = s' := Option.some.inj hs'
              obtain rfl : d = d' := Option.some.inj hd'
              exact of_decide_eq_false hdec hge'
          · exact fun h => nomatch h
          · exact fun _ => rfl

/-- Witness for `talking_stop_iff`: a talker that started at time 0 with
duration 2, evaluated at time 3 — it stops and releases the floor. -/
theorem talking_stop_iff_witness :
    ∃ p', TP.runStep ⟨"P1", 1, 1, 5, false, false, some 0, some 2, St.talking⟩ 0 0 3 = some p' ∧
      (p'.state = St.idle ↔
        ((⟨"P1", 1, 1, 5, false, false, some 0, some 2, St.talking⟩ : TP).stop_event = true ∨
          ∃ s d, (⟨"P1", 1, 1, 5, false, false, some 0, some 2, St.talking⟩ : TP).talk_start_time
              = some s ∧
            (⟨"P1", 1, 1, 5, false, false, some 0, some 2, St.talking⟩ : TP).talk_duration
              = some d ∧
            (3 : ℚ) - s ≥ d)) ∧
      (p'.state = St.idle → p'.holdsFloor = false) ∧
      (p'.state ≠ St.idle →
        p' = (⟨"P1", 1, 1, 5, false, false, some 0, some 2, St.talking⟩ : TP)) :=
  talking_stop_iff ⟨"P1", 1, 1, 5, false, false, some 0, some 2, St.talking⟩ 0 0 3 rfl
    (by decide)

/-- Claim C8: the claim says a configuration with
`min_talk_duration > max_talk_duration` is rejected fatally at startup.  The
code performs no such validation: `TalkingProcess.__init__` stores the bounds
unchecked, the process is constructed in `idle`, and the driver loop runs —
here it even reaches `talking` (with `random.uniform(5, 1)`, which Python
happily evaluates). -/
theorem no_startup_validation :
    (TP.init "P1" 1 5 1).min_talk_duration > (TP.init "P1" 1 5 1).max_talk_duration ∧
    (TP.init "P1" 1 5 1).state = St.idle ∧
    ((TP.init "P1" 1 5 1).runMany [(0, 0, 0), (0, 1, 0)]).map TP.state = some St.talking := by
  refine ⟨by decide, rfl, rfl⟩

/-- Claim C9: with `p_k = 0` and the process in `idle`, every driver iteration
leaves it exactly as it is — `random.random() < 0` never succeeds for any draw
`r ≥ 0` — so the agent stays in `idle` for every sequence of inputs. -/
theorem pk_zero_stays_idle (p : TP) (h0 : p.p_k = 0) (hs : p.state = St.idle)
    (inputs : List (ℚ × ℚ × ℚ)) (hr : ∀ x ∈ inputs, 0 ≤ x.1) :
    p.runMany inputs = some p := by
  induction inputs with
  | nil => rfl
  | cons x rest ih =>
    obtain ⟨r, u, now⟩ := x
    have hr0 : (0 : ℚ) ≤ r := hr (r, u, now) (List.mem_cons_self _ _)
    have hlt : p.should_start_talking r = false := by
      simp only [TP.should_start_talking, h0]
      exact decide_eq_false (not_lt.mpr hr0)
    have hstep : p.runStep r u now = some p := by
      have heq : p.runStep r u now
          = some (if p.should_start_talking r = true
              then { p with state := St.intending } else p) := by
        unfold TP.runStep
        rw [hs]
      rw [heq, hlt]
      simp only [Bool.false_eq_true, if_false]
    simp only [TP.runMany, hstep]
    exact ih (fun y hy => hr y (List.mem_cons_of_mem _ hy))

/-- Witness for `pk_zero_stays_idle`: two iterations with draws 0 and 1 leave
the freshly initialised process untouched. -/
theorem pk_zero_stays_idle_witness :
    TP.runMany (TP.init "P1" 0 1 5) [(0, 0, 0), (1, 0, 2)] = some (TP.init "P1" 0 1 5) :=
  pk_zero_stays_idle (TP.init "P1" 0 1 5) rfl rfl [(0, 0, 0), (1, 0, 2)] (by decide)
